import Mathlib

/-!
Verification of the myfinemu 6502 CPU core.

Shallow embedding conventions: every Go `uintN` value is modelled as a `Nat`;
arithmetic that can leave the width carries an explicit `% 2^N` (`% 256` for
`uint8`, `% 65536` for `uint16`).  The 64 KiB memory array is a function
`Nat → Nat`; indexing reduces the index `% 65536` (the Go index expressions are
`uint16`-typed) and reads reduce the value `% 256` (the array holds `uint8`).
Fallible operations return `Option`.
-/

set_option maxHeartbeats 1000000

namespace Myfinemu

/-- Status bit masks, from the source constant block. -/
def N_BIT_STATUS : Nat := 0x80

def V_BIT_STATUS : Nat := 0x40

def B_BIT_STATUS : Nat := 0x10

def D_BIT_STATUS : Nat := 0x08

def I_BIT_STATUS : Nat := 0x04

def Z_BIT_STATUS : Nat := 0x02

def C_BIT_STATUS : Nat := 0x01

def NEG_BIT : Nat := 0x80

def MEMORY_SIZE : Nat := 0x10000

def ROM_SEGMENT_START : Nat := 0x8000

def STACK_START : Nat := 0x0100

def PC_RESET_ADDRESS : Nat := 0xfffc

/-- Addressing modes, in the source's declaration order (`AddrImmediate` is the
Go zero value of the type). -/
inductive AddressMode where
  | AddrImmediate
  | AddrZeroPage
  | AddrZeroPageX
  | AddrZeroPageY
  | AddrAbsolute
  | AddrAbsoluteX
  | AddrAbsoluteY
  | AddrIndirectX
  | AddrIndirectY
  | AddrImplied
  | AddrIndirect
deriving DecidableEq, Repr

open AddressMode

/-- CPU state: six registers plus the flat 64 KiB memory. -/
structure CPU where
  program_counter : Nat
  stack_pointer : Nat
  accumulator : Nat
  index_x : Nat
  index_y : Nat
  status : Nat
  memory : Nat → Nat

/-- Instruction descriptor `(name, mode, hex, size)`. -/
structure Instruction where
  name : String
  mode : AddressMode
  hex : Nat
  size : Nat
deriving DecidableEq, Repr

/-- The opcode table (`opcodeList` in the source `init`). -/
def opcodes : List Instruction :=
  [⟨"ADC", AddrImmediate, 0x69, 2⟩,
   ⟨"ADC", AddrZeroPage, 0x65, 2⟩,
   ⟨"ADC", AddrZeroPageX, 0x75, 2⟩,
   ⟨"ADC", AddrAbsolute, 0x6d, 3⟩,
   ⟨"ADC", AddrAbsoluteX, 0x7d, 3⟩,
   ⟨"ADC", AddrAbsoluteY, 0x79, 3⟩,
   ⟨"ADC", AddrIndirectX, 0x61, 3⟩,
   ⟨"ADC", AddrIndirectY, 0x71, 3⟩,
   ⟨"AND", AddrImmediate, 0x29, 2⟩,
   ⟨"AND", AddrZeroPage, 0x25, 2⟩,
   ⟨"AND", AddrZeroPageX, 0x35, 2⟩,
   ⟨"AND", AddrAbsolute, 0x2d, 3⟩,
   ⟨"AND", AddrAbsoluteX, 0x3d, 3⟩,
   ⟨"AND", AddrAbsoluteY, 0x39, 3⟩,
   ⟨"AND", AddrIndirectX, 0x21, 3⟩,
   ⟨"AND", AddrIndirectY, 0x31, 3⟩,
   ⟨"ASL", AddrImplied, 0x0a, 1⟩,
   ⟨"ASL", AddrZeroPage, 0x06, 2⟩,
   ⟨"ASL", AddrZeroPageX, 0x16, 2⟩,
   ⟨"ASL", AddrAbsolute, 0x0e, 3⟩,
   ⟨"ASL", AddrAbsoluteX, 0x1e, 3⟩,
   ⟨"BCC", AddrImmediate, 0x90, 2⟩,
   ⟨"BCS", AddrImmediate, 0xb0, 2⟩,
   ⟨"BEQ", AddrImmediate, 0xf0, 2⟩,
   ⟨"BIT", AddrZeroPage, 0x24, 2⟩,
   ⟨"BIT", AddrAbsolute, 0x2c, 3⟩,
   ⟨"BMI", AddrImmediate, 0x30, 2⟩,
   ⟨"BNE", AddrImmediate, 0xd0, 2⟩,
   ⟨"BPL", AddrImmediate, 0x10, 2⟩,
   ⟨"BRK", AddrImplied, 0x00, 1⟩,
   ⟨"BVC", AddrImmediate, 0x50, 2⟩,
   ⟨"BVS", AddrImmediate, 0x70, 2⟩,
   ⟨"CLC", AddrImmediate, 0x18, 1⟩,
   ⟨"CLD", AddrImmediate, 0xd8, 1⟩,
   ⟨"CLI", AddrImmediate, 0x58, 1⟩,
   ⟨"CLV", AddrImmediate, 0xb8, 1⟩,
   ⟨"CMP", AddrImmediate, 0xc9, 2⟩,
   ⟨"CMP", AddrZeroPage, 0xc5, 2⟩,
   ⟨"CMP", AddrZeroPageX, 0xd5, 2⟩,
   ⟨"CMP", AddrAbsolute, 0xcd, 3⟩,
   ⟨"CMP", AddrAbsoluteX, 0xdd, 3⟩,
   ⟨"CMP", AddrAbsoluteY, 0xd9, 3⟩,
   ⟨"CMP", AddrIndirectX, 0xc1, 2⟩,
   ⟨"CMP", AddrIndirectY, 0xd1, 2⟩,
   ⟨"CPX", AddrImmediate, 0xe0, 2⟩,
   ⟨"CPX", AddrZeroPage, 0xe4, 2⟩,
   ⟨"CPX", AddrAbsolute, 0xec, 3⟩,
   ⟨"CPY", AddrImmediate, 0xc0, 2⟩,
   ⟨"CPY", AddrZeroPage, 0xc4, 2⟩,
   ⟨"CPY", AddrAbsolute, 0xcc, 3⟩,
   ⟨"DEC", AddrZeroPage, 0xc6, 2⟩,
   ⟨"DEC", AddrZeroPageX, 0xd6, 2⟩,
   ⟨"DEC", AddrAbsolute, 0xce, 3⟩,
   ⟨"DEC", AddrAbsoluteX, 0xde, 3⟩,
   ⟨"DEX", AddrImplied, 0xca, 1⟩,
   ⟨"DEY", AddrImplied, 0x88, 1⟩,
   ⟨"EOR", AddrImmediate, 0x49, 2⟩,
   ⟨"EOR", AddrZeroPage, 0x45, 2⟩,
   ⟨"EOR", AddrZeroPageX, 0x55, 2⟩,
   ⟨"EOR", AddrAbsolute, 0x4d, 3⟩,
   ⟨"EOR", AddrAbsoluteX, 0x5d, 3⟩,
   ⟨"EOR", AddrAbsoluteY, 0x59, 3⟩,
   ⟨"EOR", AddrIndirectX, 0x41, 2⟩,
   ⟨"EOR", AddrIndirectY, 0x51, 2⟩,
   ⟨"INC", AddrZeroPage, 0xe6, 2⟩,
   ⟨"INC", AddrZeroPageX, 0xf6, 2⟩,
   ⟨"INC", AddrAbsolute, 0xee, 3⟩,
   ⟨"INC", AddrAbsoluteX, 0xfe, 3⟩,
   ⟨"INX", AddrImplied, 0xe8, 1⟩,
   ⟨"INY", AddrImplied, 0xc8, 1⟩,
   ⟨"JMP", AddrAbsolute, 0x4c, 3⟩,
   ⟨"JMP", AddrIndirect, 0x6c, 3⟩,
   ⟨"JSR", AddrAbsolute, 0x20, 3⟩,
   ⟨"LDA", AddrImmediate, 0xa9, 2⟩,
   ⟨"LDA", AddrZeroPage, 0xa5, 2⟩,
   ⟨"LDA", AddrZeroPageX, 0xb5, 2⟩,
   ⟨"LDA", AddrAbsolute, 0xad, 3⟩,
   ⟨"LDA", AddrAbsoluteX, 0xbd, 3⟩,
   ⟨"LDA", AddrAbsoluteY, 0xb9, 3⟩,
   ⟨"LDA", AddrIndirectX, 0xa1, 3⟩,
   ⟨"LDA", AddrIndirectY, 0xb1, 3⟩,
   ⟨"LDX", AddrImmediate, 0xa2, 2⟩,
   ⟨"LDX", AddrZeroPage, 0xa6, 2⟩,
   ⟨"LDX", AddrZeroPageY, 0xb6, 2⟩,
   ⟨"LDX", AddrAbsolute, 0xae, 3⟩,
   ⟨"LDX", AddrAbsoluteY, 0xbe, 3⟩,
   ⟨"TAX", AddrImplied, 0xaa, 1⟩]

/-- Go map lookup `opcodes[instruction]`: a missing key yields the zero value
`Instruction{name: "", mode: AddrImmediate, hex: 0, size: 0}`. -/
def opcodesLookup (b : Nat) : Instruction :=
  (opcodes.find? (fun i => i.hex == b)).getD ⟨"", AddrImmediate, 0, 0⟩

/-- Read one byte: the index is a `uint16` expression, the cell is a `uint8`. -/
def memRead (c : CPU) (address : Nat) : Nat :=
  c.memory (address % 65536) % 256

/-- Write one byte at a `uint16` index. -/
def memWrite (mem : Nat → Nat) (address value : Nat) : Nat → Nat :=
  fun a => if a = address % 65536 then value else mem a

/-- `readAddressValue`: little-endian word read, `uint16(high)<<8 | uint16(low)`
(for bytes the `or` of the disjoint halves is the sum `high*256 + low`). -/
def readAddressValue (mem : Nat → Nat) (address : Nat) : Nat :=
  let low := mem (address % 65536) % 256
  let high := mem ((address + 1) % 65536) % 256
  high * 256 + low

/-- `writeAddressValue`: little-endian word write; low byte `value & 0x00ff`
to `address`, then high byte `(value & 0xff00) >> 8` to `address+1`. -/
def writeAddressValue (mem : Nat → Nat) (address value : Nat) : Nat → Nat :=
  memWrite (memWrite mem address (value % 256)) (address + 1) (value / 256 % 256)

def setFlag (c : CPU) (flag : Nat) : CPU :=
  { c with status := c.status ||| flag }

def clearFlag (c : CPU) (flag : Nat) : CPU :=
  { c with status := c.status &&& (0xff ^^^ flag) }

/-- The standard NZ update: N from `value & NEG_BIT`, Z from `value == 0`. -/
def updateStatusFlags (c : CPU) (value : Nat) : CPU :=
  let c1 := if 0 < value &&& NEG_BIT then setFlag c N_BIT_STATUS else clearFlag c N_BIT_STATUS
  if value = 0 then setFlag c1 Z_BIT_STATUS else clearFlag c1 Z_BIT_STATUS

def setCarryFlag (c : CPU) (carry : Bool) : CPU :=
  if carry then setFlag c C_BIT_STATUS else clearFlag c C_BIT_STATUS

/-- `modularAdd`: `(uint16(x) + uint16(y)) % 0x0100`. -/
def modularAdd (x y : Nat) : Nat :=
  (x + y) % 256

/-- `getParameterValue`: effective operand address per addressing mode.  The
unmatched modes (`AddrImplied`, `AddrIndirect`) fall through to `return 0`. -/
def getParameterValue (c : CPU) (mode : AddressMode) : Nat :=
  let param_address := c.program_counter % 65536
  match mode with
  | AddrImmediate => param_address
  | AddrZeroPage => memRead c param_address
  | AddrZeroPageX => modularAdd (memRead c param_address) c.index_x
  | AddrZeroPageY => modularAdd (memRead c param_address) c.index_y
  | AddrAbsolute => readAddressValue c.memory param_address
  | AddrAbsoluteX => (readAddressValue c.memory param_address + c.index_x % 256) % 65536
  | AddrAbsoluteY => (readAddressValue c.memory param_address + c.index_y % 256) % 65536
  | AddrIndirectX => readAddressValue c.memory (modularAdd (memRead c param_address) c.index_x)
  | AddrIndirectY => (c.index_y % 256 + readAddressValue c.memory (memRead c param_address)) % 65536
  | AddrImplied => 0
  | AddrIndirect => 0

/-- `returnByteWithCarry`: split a `uint16` sum into `(byte, carry-out)`. -/
def returnByteWithCarry (result : Nat) : Nat × Bool :=
  if 255 < result then (result % 256, true) else (result, false)

def addWithCarry (acc val carry : Nat) : Nat × Bool :=
  returnByteWithCarry (acc + val + carry)

def shiftLeftWithCarry (val : Nat) : Nat × Bool :=
  returnByteWithCarry (val * 2)

inductive InstructionPostProccessingMode where
  | InstructionHalt
  | InstructionContinue
  | InstructionProgramCounterUpdated
deriving DecidableEq, Repr

open InstructionPostProccessingMode

inductive CPUError where
  | UnimplementedOpcode
  | ROMTooLarge
deriving DecidableEq, Repr

/-- Result of one opcode handler: the mutated CPU, the post-processing
disposition, and the Go `error` value. -/
abbrev OpOutcome := CPU × InstructionPostProccessingMode × Option CPUError

/-- `pushStack`: write at `STACK_START + uint16(S)`, then `S++` (`uint8`). -/
def pushStack (c : CPU) (value : Nat) : CPU :=
  { c with memory := memWrite c.memory (STACK_START + c.stack_pointer % 256) value,
           stack_pointer := (c.stack_pointer + 1) % 256 }

/-- `pushStackAddress`: little-endian word write at `STACK_START + uint16(S)`,
then `S += 2`. -/
def pushStackAddress (c : CPU) (address : Nat) : CPU :=
  { c with memory := writeAddressValue c.memory (STACK_START + c.stack_pointer % 256) address,
           stack_pointer := (c.stack_pointer + 2) % 256 }

/-- `popStack`: `S--` first (`uint8` wrap), then read at `STACK_START + S`. -/
def popStack (c : CPU) : CPU × Nat :=
  let sp := (c.stack_pointer + 255) % 256
  ({ c with stack_pointer := sp }, c.memory ((STACK_START + sp) % 65536) % 256)

/-- `branchOnStatus`: read the displacement byte, test `status & flag`
against `set`, and on a taken branch add the byte (zero-extended) to PC. -/
def branchOnStatus (c : CPU) (mode : AddressMode) (flag : Nat) (set : Bool) : OpOutcome :=
  let value := memRead c (getParameterValue c mode)
  let do_branch := if set then decide (0 < c.status &&& flag) else decide (c.status &&& flag = 0)
  if do_branch then
    ({ c with program_counter := (c.program_counter + value) % 65536 },
     InstructionProgramCounterUpdated, none)
  else
    (c, InstructionContinue, none)

/-- `generateClearCallback`: `status &= (bit ^ 0xff)`. -/
def clearOp (c : CPU) (bit : Nat) : OpOutcome :=
  ({ c with status := c.status &&& (bit ^^^ 0xff) }, InstructionContinue, none)

/-- `generateCompareCallback`: NZ from the `uint8` difference `register - value`;
C is set (only) when `register > value` and is never cleared. -/
def compareOp (register : Nat) (c : CPU) (mode : AddressMode) : OpOutcome :=
  let value := memRead c (getParameterValue c mode)
  let result := (register + 256 - value) % 256
  let c1 := updateStatusFlags c result
  let c2 := if value < register then { c1 with status := c1.status ||| C_BIT_STATUS } else c1
  (c2, InstructionContinue, none)

/-- `getOpcodeImpl` + `runOpcode` fused: dispatch on the mnemonic and run the
handler.  Unknown names (including the zero-value `""`) hit the default case,
which returns `InstructionHalt` and the `Unimplemented opcode` error.
(The source's `LSR`/`ROL` cases refer to an `AddrAccumulator` constant that the
address-mode block does not define, and neither mnemonic appears in the opcode
table; they are omitted here as unreachable.) -/
def runOperation (c : CPU) (operation : String) (mode : AddressMode) : OpOutcome :=
  match operation with
  | "ADC" =>
    let value := memRead c (getParameterValue c mode)
    let carry_bit := if 0 < c.status &&& C_BIT_STATUS then 1 else 0
    let rc := addWithCarry c.accumulator value carry_bit
    let c1 := { c with accumulator := rc.1 }
    let c2 := setCarryFlag c1 rc.2
    (updateStatusFlags c2 rc.1, InstructionContinue, none)
  | "AND" =>
    let value := memRead c (getParameterValue c mode)
    let c1 := { c with accumulator := c.accumulator &&& value }
    (updateStatusFlags c1 c1.accumulator, InstructionContinue, none)
  | "ASL" =>
    if mode = AddrImplied then
      let rc := shiftLeftWithCarry (c.accumulator % 256)
      let c1 := { c with accumulator := rc.1 }
      let c2 := updateStatusFlags c1 c1.accumulator
      (setCarryFlag c2 rc.2, InstructionContinue, none)
    else
      let value_address := getParameterValue c mode
      let rc := shiftLeftWithCarry (memRead c value_address)
      let c1 := { c with memory := memWrite c.memory value_address rc.1 }
      let c2 := updateStatusFlags c1 rc.1
      (setCarryFlag c2 rc.2, InstructionContinue, none)
  | "BCC" => branchOnStatus c mode C_BIT_STATUS false
  | "BCS" => branchOnStatus c mode C_BIT_STATUS true
  | "BEQ" => branchOnStatus c mode Z_BIT_STATUS true
  | "BIT" =>
    let value := memRead c (getParameterValue c mode)
    let result := c.accumulator &&& value
    let c1 := updateStatusFlags c result
    ({ c1 with status := c1.status ||| (result &&& V_BIT_STATUS) }, InstructionContinue, none)
  | "BMI" => branchOnStatus c mode N_BIT_STATUS true
  | "BNE" => branchOnStatus c mode Z_BIT_STATUS false
  | "BPL" => branchOnStatus c mode N_BIT_STATUS false
  | "BRK" => (c, InstructionHalt, none)
  | "BVC" => branchOnStatus c mode V_BIT_STATUS false
  | "BVS" => branchOnStatus c mode V_BIT_STATUS true
  | "CLC" => clearOp c C_BIT_STATUS
  | "CLD" => clearOp c D_BIT_STATUS
  | "CLI" => clearOp c I_BIT_STATUS
  | "CLV" => clearOp c V_BIT_STATUS
  | "CMP" => compareOp c.accumulator c mode
  | "CPX" => compareOp c.index_x c mode
  | "CPY" => compareOp c.index_y c mode
  | "DEC" =>
    let value_address := getParameterValue c mode
    let result := (memRead c value_address + 255) % 256
    let c1 := { c with memory := memWrite c.memory value_address result }
    (updateStatusFlags c1 result, InstructionContinue, none)
  | "DEX" =>
    let result := (c.index_x % 256 + 255) % 256
    let c1 := { c with index_x := result }
    (updateStatusFlags c1 result, InstructionContinue, none)
  | "DEY" =>
    let result := (c.index_y % 256 + 255) % 256
    let c1 := { c with index_y := result }
    (updateStatusFlags c1 result, InstructionContinue, none)
  | "EOR" =>
    let value := memRead c (getParameterValue c mode)
    let c1 := { c with accumulator := (c.accumulator % 256) ^^^ value }
    (updateStatusFlags c1 c1.accumulator, InstructionContinue, none)
  | "INC" =>
    let value_address := getParameterValue c mode
    let value := memRead c value_address
    -- the source tests the zero-initialised `result` against 0xff, which is
    -- always false, so the else branch (uint8 wrap-around add) always runs
    let result := if (0 : Nat) = 0xff then 0 else (value + 1) % 256
    let c1 := { c with memory := memWrite c.memory value_address result }
    (updateStatusFlags c1 result, InstructionContinue, none)
  | "INX" =>
    let c1 := if c.index_x = 0xff then { c with index_x := 0 }
              else { c with index_x := (c.index_x + 1) % 256 }
    (updateStatusFlags c1 c1.index_x, InstructionContinue, none)
  | "INY" =>
    let c1 := if c.index_y = 0xff then { c with index_y := 0 }
              else { c with index_y := (c.index_y + 1) % 256 }
    (updateStatusFlags c1 c1.index_y, InstructionContinue, none)
  | "JMP" =>
    let param := readAddressValue c.memory c.program_counter
    let param := if mode = AddrIndirect then readAddressValue c.memory param else param
    ({ c with program_counter := param }, InstructionProgramCounterUpdated, none)
  | "JSR" =>
    let param := readAddressValue c.memory c.program_counter
    let return_addr := (c.program_counter + 1) % 65536
    let c1 := pushStackAddress c return_addr
    ({ c1 with program_counter := param }, InstructionProgramCounterUpdated, none)
  | "LDA" =>
    let value := memRead c (getParameterValue c mode)
    (updateStatusFlags { c with accumulator := value } value, InstructionContinue, none)
  | "LDX" =>
    let value := memRead c (getParameterValue c mode)
    (updateStatusFlags { c with index_x := value } value, InstructionContinue, none)
  | "LDY" =>
    let value := memRead c (getParameterValue c mode)
    (updateStatusFlags { c with index_y := value } value, InstructionContinue, none)
  | "NOP" => (c, InstructionContinue, none)
  | "ORA" =>
    let value := memRead c (getParameterValue c mode)
    let c1 := { c with accumulator := c.accumulator ||| value }
    (updateStatusFlags c1 c1.accumulator, InstructionContinue, none)
  | "PHA" => (pushStack c (c.accumulator % 256), InstructionContinue, none)
  | "PHP" => (pushStack c (c.status % 256), InstructionContinue, none)
  | "PLA" =>
    let r := popStack c
    let c1 := { r.1 with accumulator := r.2 }
    (updateStatusFlags c1 c1.accumulator, InstructionContinue, none)
  | "PLP" =>
    let r := popStack c
    ({ r.1 with status := r.2 }, InstructionContinue, none)
  | "TAX" =>
    let c1 := { c with index_x := c.accumulator % 256 }
    (updateStatusFlags c1 c1.index_x, InstructionContinue, none)
  | _ => (c, InstructionHalt, some CPUError.UnimplementedOpcode)

/-- `uint16(operation.size - 1)`: `size` is an unsigned Go `uint`, so the
zero-value descriptor of an unknown opcode underflows to `0xffff`. -/
def sizeAdjust (size : Nat) : Nat :=
  if size = 0 then 0xffff else (size - 1) % 65536

/-- `processNextInstruction`: fetch at PC, `PC++`, dispatch, then add
`uint16(size - 1)` to PC unless the handler already updated PC.  Returns
`(state, keepLooping, err)` where `keepLooping = (disposition != Halt)`. -/
def processNextInstruction (c : CPU) : CPU × Bool × Option CPUError :=
  let instruction := memRead c c.program_counter
  let operation := opcodesLookup instruction
  let c1 := { c with program_counter := (c.program_counter + 1) % 65536 }
  let r := runOperation c1 operation.name operation.mode
  let c2 :=
    if r.2.1 ≠ InstructionProgramCounterUpdated then
      { r.1 with program_counter := (r.1.program_counter + sizeAdjust operation.size) % 65536 }
    else r.1
  (c2, decide (r.2.1 ≠ InstructionHalt), r.2.2)

/-- `Run`, made total by a fuel parameter: `none` means the fuel ran out,
`some (c, err)` means the source loop returned with final state `c` and Go
error `err`. -/
def RunFuel : Nat → CPU → Option (CPU × Option CPUError)
  | 0, _ => none
  | fuel + 1, c =>
    let r := processNextInstruction c
    match r.2.2 with
    | some e => some (r.1, some e)
    | none => if r.2.1 then RunFuel fuel r.1 else some (r.1, none)

/-- The ROM copy loop: `position` starts at `ROM_SEGMENT_START` and is a
`uint16`, so `position++` wraps modulo 65536. -/
def copyROM : (Nat → Nat) → Nat → List Nat → (Nat → Nat)
  | mem, _, [] => mem
  | mem, position, value :: rest =>
    copyROM (memWrite mem position value) ((position + 1) % 65536) rest

/-- `LoadROM`: reject images longer than `MEMORY_SIZE`, else copy the image in
starting at 0x8000 and then write the reset vector 0x8000 at 0xfffc. -/
def LoadROM (c : CPU) (rom : List Nat) : Option CPU :=
  if MEMORY_SIZE < rom.length then none
  else some { c with
    memory := writeAddressValue (copyROM c.memory ROM_SEGMENT_START rom)
      PC_RESET_ADDRESS ROM_SEGMENT_START }

/-- `Reset`: the source zeroes S, A, P — and `index_y` twice, never `index_x`
— then loads PC from the reset vector. -/
def Reset (c : CPU) : CPU :=
  { c with stack_pointer := 0, accumulator := 0, index_y := 0, status := 0,
           program_counter := readAddressValue c.memory PC_RESET_ADDRESS }

def LoadAndReset (c : CPU) (rom : List Nat) : Option CPU :=
  (LoadROM c rom).map Reset

/-- `NewCPU`: the Go zero value. -/
def NewCPU : CPU :=
  ⟨0, 0, 0, 0, 0, 0, fun _ => 0⟩

/-- Table of the branch opcodes with the flag and sense each one passes to
`generateBranchCallback` in the source dispatch. -/
def branchOps : List (Nat × Nat × Bool) :=
  [(0x90, C_BIT_STATUS, false), (0xb0, C_BIT_STATUS, true),
   (0xf0, Z_BIT_STATUS, true), (0xd0, Z_BIT_STATUS, false),
   (0x30, N_BIT_STATUS, true), (0x10, N_BIT_STATUS, false),
   (0x50, V_BIT_STATUS, false), (0x70, V_BIT_STATUS, true)]

/-! ### Concrete states used for witnesses and counterexamples -/

/-- `BCC $07` at 0x8000 with the carry clear (the branch is taken). -/
def branchExample : CPU :=
  ⟨0x8000, 0, 0, 0, 0, 0,
    fun a => if a = 0x8000 then 0x90 else if a = 0x8001 then 0x07 else 0⟩

/-- The byte 0xff (no opcode-table entry) at PC = 0x8000. -/
def unimplExample : CPU :=
  ⟨0x8000, 0, 0, 0, 0, 0, fun a => if a = 0x8000 then 0xff else 0⟩

/-- `CMP` immediate with A = 3 and operand byte 3 (equal operands), C clear. -/
def compareExample : CPU :=
  ⟨0, 0, 3, 0, 0, 0, fun a => if a = 0 then 3 else 0⟩

/-- Registers and flags all nonzero, reset vector 0x8000 at 0xfffc. -/
def resetExample : CPU :=
  ⟨0x1234, 7, 9, 5, 4, 0xff,
    fun a => if a = 0xfffc then 0x00 else if a = 0xfffd then 0x80 else 0⟩

/-- `BIT $10` with A = 0 and memory[0x10] = 0x40 (bit 6 of M set, A & M = 0). -/
def bitExample : CPU :=
  ⟨0, 0, 0, 0, 0, 0,
    fun a => if a = 0 then 0x10 else if a = 0x10 then 0x40 else 0⟩

/-- `JSR $8005` at 0x8000 with an empty stack. -/
def jsrExample : CPU :=
  ⟨0x8000, 0, 0, 0, 0, 0,
    fun a => if a = 0x8000 then 0x20 else if a = 0x8001 then 0x05 else
             if a = 0x8002 then 0x80 else 0⟩

/-- `ADC #$ff` at 0x8000 with A = 3 and C clear (the spec's scenario 2). -/
def adcExample : CPU :=
  ⟨0x8000, 0, 0x03, 0, 0, 0,
    fun a => if a = 0x8000 then 0x69 else if a = 0x8001 then 0xff else 0⟩

/-- A 32,765-byte image of 0x55 bytes: its byte 0x7ffc lands on the reset
vector address 0xfffc. -/
def bigROM : List Nat := List.replicate 32765 0x55

/-- A 33,000-byte image: longer than 32 KiB, still accepted by `LoadROM`. -/
def longROM : List Nat := List.replicate 33000 1

/-! ### Status-bit bookkeeping lemmas -/

lemma pos_land_neg_bit (v : Nat) : (0 < v &&& NEG_BIT) ↔ v.testBit 7 = true := by
  have h : NEG_BIT = 2 ^ 7 := by norm_num [NEG_BIT]
  rw [h, Nat.and_two_pow]
  cases hv : v.testBit 7 <;> simp [hv]

lemma updateStatusFlags_testBit0 (c : CPU) (v : Nat) :
    ((updateStatusFlags c v).status).testBit 0 = c.status.testBit 0 := by
  by_cases hn : 0 < v &&& NEG_BIT <;> by_cases hz : v = 0 <;>
    simp [updateStatusFlags, setFlag, clearFlag, hn, hz, N_BIT_STATUS, Z_BIT_STATUS,
      Nat.testBit_lor, Nat.testBit_land,
      (by decide : (0x80 : Nat).testBit 0 = false),
      (by decide : (0x02 : Nat).testBit 0 = false),
      (by decide : Nat.testBit 127 0 = true),
      (by decide : Nat.testBit 253 0 = true)]

lemma updateStatusFlags_testBit6 (c : CPU) (v : Nat) :
    ((updateStatusFlags c v).status).testBit 6 = c.status.testBit 6 := by
  by_cases hn : 0 < v &&& NEG_BIT <;> by_cases hz : v = 0 <;>
    simp [updateStatusFlags, setFlag, clearFlag, hn, hz, N_BIT_STATUS, Z_BIT_STATUS,
      Nat.testBit_lor, Nat.testBit_land,
      (by decide : (0x80 : Nat).testBit 6 = false),
      (by decide : (0x02 : Nat).testBit 6 = false),
      (by decide : Nat.testBit 127 6 = true),
      (by decide : Nat.testBit 253 6 = true)]

lemma updateStatusFlags_testBit1 (c : CPU) (v : Nat) :
    ((updateStatusFlags c v).status).testBit 1 = decide (v = 0) := by
  by_cases hn : 0 < v &&& NEG_BIT <;> by_cases hz : v = 0 <;>
    simp [updateStatusFlags, setFlag, clearFlag, hn, hz, N_BIT_STATUS, Z_BIT_STATUS,
      Nat.testBit_lor, Nat.testBit_land,
      (by decide : (0x02 : Nat).testBit 1 = true),
      (by decide : Nat.testBit 128 1 = false),
      (by decide : Nat.testBit 127 1 = true),
      (by decide : Nat.testBit 253 1 = false)]

lemma updateStatusFlags_testBit7 (c : CPU) (v : Nat) :
    ((updateStatusFlags c v).status).testBit 7 = v.testBit 7 := by
  cases hv : v.testBit 7 with
  | false =>
    have hn : ¬ (0 < v &&& NEG_BIT) := by rw [pos_land_neg_bit]; simp [hv]
    by_cases hz : v = 0 <;>
      simp [updateStatusFlags, setFlag, clearFlag, hn, hz, N_BIT_STATUS, Z_BIT_STATUS,
        Nat.testBit_lor, Nat.testBit_land,
        (by decide : (0x02 : Nat).testBit 7 = false),
        (by decide : Nat.testBit 127 7 = false),
        (by decide : Nat.testBit 253 7 = true)]
  | true =>
    have hn : 0 < v &&& NEG_BIT := by rw [pos_land_neg_bit]; exact hv
    by_cases hz : v = 0
    · subst hz; simp at hv
    · simp [updateStatusFlags, setFlag, clearFlag, hn, hz, N_BIT_STATUS, Z_BIT_STATUS,
        Nat.testBit_lor, Nat.testBit_land,
        (by decide : (0x80 : Nat).testBit 7 = true),
        (by decide : (0x02 : Nat).testBit 7 = false),
        (by decide : Nat.testBit 253 7 = true)]

lemma setCarryFlag_testBit0 (c : CPU) (b : Bool) :
    ((setCarryFlag c b).status).testBit 0 = b := by
  cases b <;>
    simp [setCarryFlag, setFlag, clearFlag, C_BIT_STATUS,
      Nat.testBit_lor, Nat.testBit_land,
      (by decide : (0x01 : Nat).testBit 0 = true),
      (by decide : Nat.testBit 254 0 = false)]

lemma setCarryFlag_accumulator (c : CPU) (b : Bool) :
    (setCarryFlag c b).accumulator = c.accumulator := by
  cases b <;> simp [setCarryFlag, setFlag, clearFlag]

lemma updateStatusFlags_accumulator (c : CPU) (v : Nat) :
    (updateStatusFlags c v).accumulator = c.accumulator := by
  by_cases hn : 0 < v &&& NEG_BIT <;> by_cases hz : v = 0 <;>
    simp [updateStatusFlags, setFlag, clearFlag, hn, hz]

lemma updateStatusFlags_only_status (c : CPU) (v : Nat) :
    (updateStatusFlags c v).accumulator = c.accumulator ∧
    (updateStatusFlags c v).index_x = c.index_x ∧
    (updateStatusFlags c v).index_y = c.index_y ∧
    (updateStatusFlags c v).stack_pointer = c.stack_pointer ∧
    (updateStatusFlags c v).program_counter = c.program_counter ∧
    (updateStatusFlags c v).memory = c.memory := by
  by_cases hn : 0 < v &&& NEG_BIT <;> by_cases hz : v = 0 <;>
    simp [updateStatusFlags, setFlag, clearFlag, hn, hz]

lemma mod65536_idem (x : Nat) : x % 65536 % 65536 = x % 65536 := by
  omega

/-! ### ROM copy loop lemmas -/

lemma copyROM_untouched (rom : List Nat) :
    ∀ (mem : Nat → Nat) (pos a : Nat),
      (∀ j, j < rom.length → a ≠ (pos + j) % 65536) →
      copyROM mem pos rom a = mem a := by
  induction rom with
  | nil => intro mem pos a _; rfl
  | cons v rest ih =>
    intro mem pos a h
    have h0 : a ≠ pos % 65536 := by
      have h0 := h 0 (by simp)
      simpa using h0
    show copyROM (memWrite mem pos v) ((pos + 1) % 65536) rest a = mem a
    rw [ih]
    · simp [memWrite, h0]
    · intro j hj heq
      have hj1 := h (j + 1) (by simp only [List.length_cons]; omega)
      apply hj1
      rw [heq]
      omega

lemma copyROM_getD (rom : List Nat) :
    ∀ (mem : Nat → Nat) (pos i : Nat), pos < 65536 → rom.length ≤ 65536 → i < rom.length →
      copyROM mem pos rom ((pos + i) % 65536) = rom.getD i 0 := by
  induction rom with
  | nil => intro mem pos i _ _ hi; simp at hi
  | cons v rest ih =>
    intro mem pos i hpos hlen hi
    cases i with
    | zero =>
      show copyROM (memWrite mem pos v) ((pos + 1) % 65536) rest ((pos + 0) % 65536) = _
      rw [copyROM_untouched]
      · have e : (pos + 0) % 65536 = pos % 65536 := by omega
        rw [e]
        simp [memWrite]
      · intro j hj
        have hr : rest.length ≤ 65535 := by
          simp only [List.length_cons] at hlen; omega
        omega
    | succ i =>
      show copyROM (memWrite mem pos v) ((pos + 1) % 65536) rest ((pos + (i + 1)) % 65536) = _
      have e : (pos + (i + 1)) % 65536 = ((pos + 1) % 65536 + i) % 65536 := by omega
      rw [e, ih]
      · simp
      · omega
      · simp only [List.length_cons] at hlen; omega
      · simp only [List.length_cons] at hi; omega

/-- Success form of `LoadROM` for an in-range image. -/
lemma LoadROM_eq_some (c : CPU) (rom : List Nat) (hlen : rom.length ≤ 65536) :
    LoadROM c rom = some { c with
      memory := writeAddressValue (copyROM c.memory ROM_SEGMENT_START rom)
        PC_RESET_ADDRESS ROM_SEGMENT_START } := by
  rw [LoadROM, if_neg]
  simp [MEMORY_SIZE]
  omega

/-! ### One-step lemmas for the fetch–execute loop -/

lemma branch_step_core (c : CPU) (name : String) (flag b : Nat) (sense : Bool)
    (hb : memRead c c.program_counter = b)
    (hop : opcodesLookup b = ⟨name, AddrImmediate, b, 2⟩)
    (hrun : ∀ (c' : CPU) (m : AddressMode), runOperation c' name m = branchOnStatus c' m flag sense) :
    ((if sense then 0 < c.status &&& flag else c.status &&& flag = 0) →
       (processNextInstruction c).1.program_counter
         = (c.program_counter + 1 + memRead c ((c.program_counter + 1) % 65536)) % 65536) ∧
    ((¬ (if sense then 0 < c.status &&& flag else c.status &&& flag = 0)) →
       (processNextInstruction c).1.program_counter = (c.program_counter + 2) % 65536) := by
  simp only [processNextInstruction, hb, hop, hrun, branchOnStatus, getParameterValue]
  cases sense with
  | false =>
    by_cases hcond : c.status &&& flag = 0
    · refine ⟨fun _ => ?_, fun hno => absurd hcond hno⟩
      simp [hcond, memRead]
    · refine ⟨fun hyes => absurd hyes hcond, fun _ => ?_⟩
      simp [hcond, memRead, sizeAdjust]
  | true =>
    by_cases hcond : 0 < c.status &&& flag
    · refine ⟨fun _ => ?_, fun hno => absurd hcond hno⟩
      simp [hcond, memRead]
    · refine ⟨fun hyes => absurd hyes hcond, fun _ => ?_⟩
      simp [hcond, memRead, sizeAdjust]

/-! ### Handler-level lemmas -/

lemma runOperation_CMP (c : CPU) (m : AddressMode) :
    runOperation c "CMP" m = compareOp c.accumulator c m := rfl

lemma runOperation_CPX (c : CPU) (m : AddressMode) :
    runOperation c "CPX" m = compareOp c.index_x c m := rfl

lemma runOperation_CPY (c : CPU) (m : AddressMode) :
    runOperation c "CPY" m = compareOp c.index_y c m := rfl

lemma memRead_lt (c : CPU) (a : Nat) : memRead c a < 256 := by
  simp only [memRead]
  omega

/-- Behaviour of the shared compare callback: NZ from the 8-bit difference,
C set (only) when `register > value`, nothing else touched. -/
lemma compareOp_spec (c : CPU) (mode : AddressMode) (r : Nat) (hr : r < 256) :
    ((compareOp r c mode).1.status).testBit 1
        = decide (r = memRead c (getParameterValue c mode)) ∧
    ((compareOp r c mode).1.status).testBit 7
        = ((r + 256 - memRead c (getParameterValue c mode)) % 256).testBit 7 ∧
    ((compareOp r c mode).1.status).testBit 0
        = (c.status.testBit 0 || decide (memRead c (getParameterValue c mode) < r)) ∧
    (compareOp r c mode).1.accumulator = c.accumulator ∧
    (compareOp r c mode).1.index_x = c.index_x ∧
    (compareOp r c mode).1.index_y = c.index_y ∧
    (compareOp r c mode).1.stack_pointer = c.stack_pointer ∧
    (compareOp r c mode).1.program_counter = c.program_counter ∧
    (compareOp r c mode).1.memory = c.memory := by
  have hM : memRead c (getParameterValue c mode) < 256 := memRead_lt c _
  simp only [compareOp]
  by_cases hc : memRead c (getParameterValue c mode) < r
  · simp only [hc, if_true]
    refine ⟨?_, ?_, ?_, ?_, ?_, ?_, ?_, ?_, ?_⟩
    · rw [Nat.testBit_lor, updateStatusFlags_testBit1]
      simp only [(by decide : (C_BIT_STATUS : Nat).testBit 1 = false), Bool.or_false,
        decide_eq_decide]
      omega
    · rw [Nat.testBit_lor, updateStatusFlags_testBit7]
      simp [(by decide : (C_BIT_STATUS : Nat).testBit 7 = false)]
    · rw [Nat.testBit_lor, updateStatusFlags_testBit0]
      simp [hc, (by decide : (C_BIT_STATUS : Nat).testBit 0 = true)]
    · exact (updateStatusFlags_only_status c _).1
    · exact (updateStatusFlags_only_status c _).2.1
    · exact (updateStatusFlags_only_status c _).2.2.1
    · exact (updateStatusFlags_only_status c _).2.2.2.1
    · exact (updateStatusFlags_only_status c _).2.2.2.2.1
    · exact (updateStatusFlags_only_status c _).2.2.2.2.2
  · simp only [hc, if_false]
    refine ⟨?_, ?_, ?_, ?_, ?_, ?_, ?_, ?_, ?_⟩
    · rw [updateStatusFlags_testBit1]
      simp only [decide_eq_decide]
      omega
    · rw [updateStatusFlags_testBit7]
    · rw [updateStatusFlags_testBit0]
      simp [hc]
    · exact (updateStatusFlags_only_status c _).1
    · exact (updateStatusFlags_only_status c _).2.1
    · exact (updateStatusFlags_only_status c _).2.2.1
    · exact (updateStatusFlags_only_status c _).2.2.2.1
    · exact (updateStatusFlags_only_status c _).2.2.2.2.1
    · exact (updateStatusFlags_only_status c _).2.2.2.2.2

lemma runOperation_BIT (c : CPU) (m : AddressMode) :
    runOperation c "BIT" m =
      ({ updateStatusFlags c (c.accumulator &&& memRead c (getParameterValue c m)) with
          status := (updateStatusFlags c (c.accumulator &&& memRead c (getParameterValue c m))).status
            ||| ((c.accumulator &&& memRead c (getParameterValue c m)) &&& V_BIT_STATUS) },
       InstructionPostProccessingMode.InstructionContinue, none) := rfl

lemma runOperation_ADC (c : CPU) (m : AddressMode) :
    runOperation c "ADC" m =
      (updateStatusFlags
        (setCarryFlag
          { c with accumulator :=
              (addWithCarry c.accumulator (memRead c (getParameterValue c m))
                (if 0 < c.status &&& C_BIT_STATUS then 1 else 0)).1 }
          (addWithCarry c.accumulator (memRead c (getParameterValue c m))
            (if 0 < c.status &&& C_BIT_STATUS then 1 else 0)).2)
        (addWithCarry c.accumulator (memRead c (getParameterValue c m))
          (if 0 < c.status &&& C_BIT_STATUS then 1 else 0)).1,
       InstructionPostProccessingMode.InstructionContinue, none) := rfl

lemma runOperation_JSR (c : CPU) (m : AddressMode) :
    runOperation c "JSR" m =
      ({ pushStackAddress c ((c.program_counter + 1) % 65536) with
          program_counter := readAddressValue c.memory c.program_counter },
       InstructionPostProccessingMode.InstructionProgramCounterUpdated, none) := rfl

lemma runOperation_default (c : CPU) (m : AddressMode) :
    runOperation c "" m =
      (c, InstructionPostProccessingMode.InstructionHalt, some CPUError.UnimplementedOpcode) := rfl

lemma addWithCarry_fst (a v cb : Nat) : (addWithCarry a v cb).1 = (a + v + cb) % 256 := by
  simp only [addWithCarry, returnByteWithCarry]
  split
  · rfl
  · next h => omega

lemma addWithCarry_snd (a v cb : Nat) : (addWithCarry a v cb).2 = decide (255 < a + v + cb) := by
  simp only [addWithCarry, returnByteWithCarry]
  split
  · next h => simp [h]
  · next h => simp [h]

/-- One full step of the loop on a `JSR` opcode. -/
lemma jsr_step (c : CPU)
    (hb : memRead c c.program_counter = 0x20)
    (hsp : c.stack_pointer < 256) :
    (processNextInstruction c).1.program_counter
        = readAddressValue c.memory ((c.program_counter + 1) % 65536) ∧
    (runOperation { c with program_counter := (c.program_counter + 1) % 65536 } "JSR" AddrAbsolute).2.1
        = InstructionPostProccessingMode.InstructionProgramCounterUpdated ∧
    (processNextInstruction c).1.stack_pointer = (c.stack_pointer + 2) % 256 ∧
    (processNextInstruction c).1.memory (STACK_START + c.stack_pointer)
        = ((c.program_counter + 2) % 65536) % 256 ∧
    (processNextInstruction c).1.memory (STACK_START + c.stack_pointer + 1)
        = ((c.program_counter + 2) % 65536) / 256 % 256 := by
  have hop : opcodesLookup 0x20 = ⟨"JSR", AddrAbsolute, 0x20, 3⟩ := rfl
  have hspr : c.stack_pointer % 256 = c.stack_pointer := Nat.mod_eq_of_lt hsp
  have hra : ((c.program_counter + 1) % 65536 + 1) % 65536 = (c.program_counter + 2) % 65536 := by
    omega
  simp only [processNextInstruction, hb, hop, runOperation_JSR, pushStackAddress,
    writeAddressValue, memWrite, STACK_START, hspr, hra]
  refine ⟨?_, ?_, ?_, ?_, ?_⟩
  · simp
  · trivial
  · simp
  · rw [if_neg (by simp : ¬ (InstructionPostProccessingMode.InstructionProgramCounterUpdated
        ≠ InstructionPostProccessingMode.InstructionProgramCounterUpdated))]
    have h1 : ¬ (0x0100 + c.stack_pointer = (0x0100 + c.stack_pointer + 1) % 65536) := by omega
    have h2 : 0x0100 + c.stack_pointer = (0x0100 + c.stack_pointer) % 65536 := by omega
    dsimp only [memWrite]
    rw [if_neg h1, if_pos h2]
  · rw [if_neg (by simp : ¬ (InstructionPostProccessingMode.InstructionProgramCounterUpdated
        ≠ InstructionPostProccessingMode.InstructionProgramCounterUpdated))]
    have h1 : 0x0100 + c.stack_pointer + 1 = (0x0100 + c.stack_pointer + 1) % 65536 := by omega
    dsimp only [memWrite]
    rw [if_pos h1]

/-- `Run` on a byte with no opcode-table entry: the `Unimplemented opcode`
error is returned and the state is completely unchanged (the `+1` from the
fetch is cancelled by the `uint16(0 - 1) = 0xffff` size adjustment). -/
lemma unimplemented_run (c : CPU) (fuel : Nat)
    (hpc : c.program_counter < 65536)
    (hno : ∀ i ∈ opcodes, i.hex ≠ memRead c c.program_counter) :
    RunFuel (fuel + 1) c = some (c, some CPUError.UnimplementedOpcode) := by
  have hop : opcodesLookup (memRead c c.program_counter) = ⟨"", AddrImmediate, 0, 0⟩ := by
    unfold opcodesLookup
    rw [List.find?_eq_none.mpr]
    · rfl
    · intro i hi
      simp [hno i hi]
  have e : ((c.program_counter + 1) % 65536 + 65535) % 65536 = c.program_counter := by omega
  simp only [RunFuel, processNextInstruction, hop, runOperation_default, sizeAdjust, if_true, e]
  rfl

/-! ### Claim theorems -/

/-- C1 (counterexample): a taken `BCC` at 0x8000 with displacement 7 leaves
PC = 0x8008 = PC0 + 1 + 7, not PC0 + 2 + 7 = 0x8009 as the claim states. -/
theorem C1_counterexample :
    (processNextInstruction branchExample).1.program_counter = 0x8008 ∧
    (0x8008 : Nat) ≠ 0x8000 + 2 + 7 := by
  decide

/-- C1 (amended): for every branch opcode `(b, flag, sense)` of the dispatch
table, executed at PC0: if the condition fails, PC becomes PC0 + 2; if it
holds, the operand byte `d` is added to the PC that points at the operand
byte itself, with no sign extension: PC becomes (PC0 + 1 + d) mod 65536,
for every `d` including those with bit 7 set. -/
theorem C1_branch_unsigned (c : CPU) (b flag : Nat) (sense : Bool)
    (hmem : (b, flag, sense) ∈ branchOps)
    (hb : memRead c c.program_counter = b) :
    ((if sense then 0 < c.status &&& flag else c.status &&& flag = 0) →
       (processNextInstruction c).1.program_counter
         = (c.program_counter + 1 + memRead c ((c.program_counter + 1) % 65536)) % 65536) ∧
    ((¬ (if sense then 0 < c.status &&& flag else c.status &&& flag = 0)) →
       (processNextInstruction c).1.program_counter = (c.program_counter + 2) % 65536) := by
  simp only [branchOps, List.mem_cons, List.not_mem_nil, or_false] at hmem
  rcases hmem with h | h | h | h | h | h | h | h
  · obtain ⟨rfl, rfl, rfl⟩ := Prod.mk.injEq .. ▸ h
    exact branch_step_core c "BCC" C_BIT_STATUS 0x90 false hb rfl (fun _ _ => rfl)
  · obtain ⟨rfl, rfl, rfl⟩ := Prod.mk.injEq .. ▸ h
    exact branch_step_core c "BCS" C_BIT_STATUS 0xb0 true hb rfl (fun _ _ => rfl)
  · obtain ⟨rfl, rfl, rfl⟩ := Prod.mk.injEq .. ▸ h
    exact branch_step_core c "BEQ" Z_BIT_STATUS 0xf0 true hb rfl (fun _ _ => rfl)
  · obtain ⟨rfl, rfl, rfl⟩ := Prod.mk.injEq .. ▸ h
    exact branch_step_core c "BNE" Z_BIT_STATUS 0xd0 false hb rfl (fun _ _ => rfl)
  · obtain ⟨rfl, rfl, rfl⟩ := Prod.mk.injEq .. ▸ h
    exact branch_step_core c "BMI" N_BIT_STATUS 0x30 true hb rfl (fun _ _ => rfl)
  · obtain ⟨rfl, rfl, rfl⟩ := Prod.mk.injEq .. ▸ h
    exact branch_step_core c "BPL" N_BIT_STATUS 0x10 false hb rfl (fun _ _ => rfl)
  · obtain ⟨rfl, rfl, rfl⟩ := Prod.mk.injEq .. ▸ h
    exact branch_step_core c "BVC" V_BIT_STATUS 0x50 false hb rfl (fun _ _ => rfl)
  · obtain ⟨rfl, rfl, rfl⟩ := Prod.mk.injEq .. ▸ h
    exact branch_step_core c "BVS" V_BIT_STATUS 0x70 true hb rfl (fun _ _ => rfl)

/-- C1 (witness): the amended branch theorem applied to a concrete taken
`BCC`. -/
theorem C1_witness :
    (processNextInstruction branchExample).1.program_counter
      = (branchExample.program_counter + 1
          + memRead branchExample ((branchExample.program_counter + 1) % 65536)) % 65536 :=
  (C1_branch_unsigned branchExample 0x90 C_BIT_STATUS false (by decide) (by decide)).1 (by decide)

/-- C2 (counterexample): running the one-byte program 0xff leaves the PC at
PC0 = 0x8000, not PC0 + 1 = 0x8001 as the claim states. -/
theorem C2_counterexample :
    (RunFuel 1 unimplExample).map (fun p => p.1.program_counter) = some 0x8000 ∧
    (0x8000 : Nat) ≠ 0x8000 + 1 := by
  exact ⟨rfl, by decide⟩

/-- C2 (amended): when the fetched byte has no opcode-table entry, `Run`
returns the `Unimplemented opcode` error and the CPU state is completely
unchanged: the `+1` from the fetch is cancelled by the `uint16(0-1) = 0xffff`
size adjustment of the zero-value descriptor, so the final PC equals PC0 and
no register, status flag or memory cell is modified. -/
theorem C2_unimplemented_unchanged (c : CPU) (fuel : Nat)
    (hpc : c.program_counter < 65536)
    (hno : ∀ i ∈ opcodes, i.hex ≠ memRead c c.program_counter) :
    RunFuel (fuel + 1) c = some (c, some CPUError.UnimplementedOpcode) :=
  unimplemented_run c fuel hpc hno

/-- C2 (witness): the amended theorem at the concrete one-byte program 0xff. -/
theorem C2_witness :
    RunFuel 1 unimplExample = some (unimplExample, some CPUError.UnimplementedOpcode) :=
  C2_unimplemented_unchanged unimplExample 0 (by decide) (by decide)

/-- C9: for the zero-page, zero-page-X and zero-page-Y addressing modes the
resolved effective address is always below 0x100: the operand byte plus the
index register is reduced modulo 256, so indexing never escapes page zero. -/
theorem C9_zero_page (c : CPU) (mode : AddressMode)
    (h : mode = AddrZeroPage ∨ mode = AddrZeroPageX ∨ mode = AddrZeroPageY) :
    getParameterValue c mode < 256 := by
  rcases h with rfl | rfl | rfl <;>
    · simp only [getParameterValue, memRead, modularAdd]
      omega

/-- C9 (witness): the zero-page-X resolver on the zero CPU stays in page 0. -/
theorem C9_witness : getParameterValue NewCPU AddrZeroPageX < 256 :=
  C9_zero_page NewCPU AddrZeroPageX (Or.inr (Or.inl rfl))

/-- C3 (counterexample): `CMP` with A = M = 3 and C initially clear leaves the
carry flag clear, although the claim demands C = (r >= M) = 1 on equality. -/
theorem C3_counterexample :
    compareExample.accumulator = 3 ∧
    memRead compareExample (getParameterValue compareExample AddrImmediate) = 3 ∧
    ((runOperation compareExample "CMP" AddrImmediate).1.status).testBit 0 = false := by
  decide

/-- C3 (amended): for every execution of CMP, CPX or CPY with register value
r < 256 and operand byte M: afterwards Z = (r = M), N = bit 7 of the 8-bit
difference (r - M) mod 256, and C is set when r > M but otherwise keeps its
previous value (the handler never clears it; in particular r = M sets Z and
leaves C unchanged); no register or memory cell is written. -/
theorem C3_compare_flags (c : CPU) (mode : AddressMode) (name : String) (r : Nat)
    (hmem : (name, r) ∈ [("CMP", c.accumulator), ("CPX", c.index_x), ("CPY", c.index_y)])
    (hr : r < 256) :
    ((runOperation c name mode).1.status).testBit 1
        = decide (r = memRead c (getParameterValue c mode)) ∧
    ((runOperation c name mode).1.status).testBit 7
        = ((r + 256 - memRead c (getParameterValue c mode)) % 256).testBit 7 ∧
    ((runOperation c name mode).1.status).testBit 0
        = (c.status.testBit 0 || decide (memRead c (getParameterValue c mode) < r)) ∧
    (runOperation c name mode).1.accumulator = c.accumulator ∧
    (runOperation c name mode).1.index_x = c.index_x ∧
    (runOperation c name mode).1.index_y = c.index_y ∧
    (runOperation c name mode).1.stack_pointer = c.stack_pointer ∧
    (runOperation c name mode).1.program_counter = c.program_counter ∧
    (runOperation c name mode).1.memory = c.memory := by
  simp only [List.mem_cons, List.not_mem_nil, or_false] at hmem
  rcases hmem with h | h | h
  · obtain ⟨rfl, rfl⟩ := Prod.mk.injEq .. ▸ h
    simp only [runOperation_CMP]
    exact compareOp_spec c mode c.accumulator hr
  · obtain ⟨rfl, rfl⟩ := Prod.mk.injEq .. ▸ h
    simp only [runOperation_CPX]
    exact compareOp_spec c mode c.index_x hr
  · obtain ⟨rfl, rfl⟩ := Prod.mk.injEq .. ▸ h
    simp only [runOperation_CPY]
    exact compareOp_spec c mode c.index_y hr

/-- C3 (witness): the amended compare theorem at A = M = 3 shows Z set. -/
theorem C3_witness :
    ((runOperation compareExample "CMP" AddrImmediate).1.status).testBit 1 = true := by
  have h := C3_compare_flags compareExample AddrImmediate "CMP" 3 (by decide) (by decide)
  rw [h.1]
  decide

/-- C4: `Reset` zeroes S, A, Y and P and loads PC from the word at 0xfffc,
but it leaves index X untouched (the source assigns `index_y = 0` twice):
with X initially 5, X is still 5 after `Reset`, contradicting the claim. -/
theorem C4_reset_bug :
    (Reset resetExample).stack_pointer = 0 ∧
    (Reset resetExample).accumulator = 0 ∧
    (Reset resetExample).index_y = 0 ∧
    (Reset resetExample).status = 0 ∧
    (Reset resetExample).program_counter = 0x8000 ∧
    (Reset resetExample).index_x = 5 ∧ (5 : Nat) ≠ 0 := by
  decide

/-- C5 (counterexample): `BIT` with A = 0 and M = 0x40 leaves V clear although
bit 6 of M is set, contradicting the claim V = bit 6 of M. -/
theorem C5_counterexample :
    memRead bitExample (getParameterValue bitExample AddrZeroPage) = 0x40 ∧
    (0x40 : Nat).testBit 6 = true ∧
    ((runOperation bitExample "BIT" AddrZeroPage).1.status).testBit 6 = false := by
  decide

/-- C5 (amended): after every execution of BIT with accumulator A and operand
byte M: V equals its old value OR-ed with bit 6 of (A & M) — it is derived
from the AND result and never cleared — Z equals (A & M = 0), and the carry
flag is unchanged. -/
theorem C5_bit_flags (c : CPU) (mode : AddressMode) :
    ((runOperation c "BIT" mode).1.status).testBit 6
        = (c.status.testBit 6
            || (c.accumulator &&& memRead c (getParameterValue c mode)).testBit 6) ∧
    ((runOperation c "BIT" mode).1.status).testBit 1
        = decide (c.accumulator &&& memRead c (getParameterValue c mode) = 0) ∧
    ((runOperation c "BIT" mode).1.status).testBit 0 = c.status.testBit 0 := by
  simp only [runOperation_BIT]
  refine ⟨?_, ?_, ?_⟩
  · rw [Nat.testBit_lor, updateStatusFlags_testBit6, Nat.testBit_land]
    simp [(by decide : (V_BIT_STATUS : Nat).testBit 6 = true)]
  · rw [Nat.testBit_lor, updateStatusFlags_testBit1, Nat.testBit_land]
    simp [(by decide : (V_BIT_STATUS : Nat).testBit 1 = false)]
  · rw [Nat.testBit_lor, updateStatusFlags_testBit0, Nat.testBit_land]
    simp [(by decide : (V_BIT_STATUS : Nat).testBit 0 = false)]

lemma getD_replicate (n i a d : Nat) (h : i < n) : (List.replicate n a).getD i d = a := by
  induction n generalizing i with
  | zero => omega
  | succ n ih =>
    rw [List.replicate_succ]
    cases i with
    | zero => rfl
    | succ i => simpa using ih i (by omega)

/-- C6 (counterexample): a 32,765-byte image is accepted, and its byte at
index 0x7ffc (value 0x55) targets address 0x8000 + 0x7ffc = 0xfffc — but the
final memory holds 0x00 there, because the reset-vector write comes last. -/
theorem C6_counterexample :
    (LoadROM NewCPU bigROM).map (fun x => x.memory 0xfffc) = some 0x00 ∧
    bigROM.getD 0x7ffc 0 = 0x55 ∧
    0x8000 + 0x7ffc = 0xfffc ∧ (0x00 : Nat) ≠ 0x55 := by
  refine ⟨?_, ?_, by norm_num, by decide⟩
  · rw [LoadROM_eq_some NewCPU bigROM (by rw [bigROM, List.length_replicate]; omega)]
    simp [writeAddressValue, memWrite, PC_RESET_ADDRESS, ROM_SEGMENT_START]
  · rw [bigROM, getD_replicate]
    omega

/-- C6 (amended): `LoadROM` fails exactly when the image exceeds 65536 bytes.
On success the copy loop stores byte i at the 16-bit position
(0x8000 + i) mod 65536 and the reset vector is then written, so the final
memory has 0x00 at 0xfffc and 0x80 at 0xfffd, and holds image byte i at
(0x8000 + i) mod 65536 for every i whose position is not one of the two
vector cells. -/
theorem C6_loadROM (c : CPU) (rom : List Nat) :
    (LoadROM c rom = none ↔ 65536 < rom.length) ∧
    (∀ c', LoadROM c rom = some c' →
      c'.memory 0xfffc = 0x00 ∧ c'.memory 0xfffd = 0x80 ∧
      (∀ i, i < rom.length → (0x8000 + i) % 65536 ≠ 0xfffc →
        (0x8000 + i) % 65536 ≠ 0xfffd →
        c'.memory ((0x8000 + i) % 65536) = rom.getD i 0)) := by
  constructor
  · constructor
    · intro h
      by_contra hlen
      rw [LoadROM_eq_some c rom (by omega)] at h
      cases h
    · intro hlen
      rw [LoadROM, if_pos]
      simpa [MEMORY_SIZE] using hlen
  · intro c' hc'
    have hlen : rom.length ≤ 65536 := by
      by_contra hlen
      push_neg at hlen
      rw [LoadROM, if_pos (by simpa [MEMORY_SIZE] using hlen)] at hc'
      simp at hc'
    rw [LoadROM_eq_some c rom hlen] at hc'
    injection hc' with h
    subst h
    have e1 : (0xfffc + 1) % 65536 = 0xfffd := by norm_num
    have e2 : (0xfffc : Nat) % 65536 = 0xfffc := by norm_num
    refine ⟨?_, ?_, ?_⟩
    · show writeAddressValue (copyROM c.memory ROM_SEGMENT_START rom)
        PC_RESET_ADDRESS ROM_SEGMENT_START 0xfffc = 0x00
      simp [writeAddressValue, memWrite, PC_RESET_ADDRESS, ROM_SEGMENT_START]
    · show writeAddressValue (copyROM c.memory ROM_SEGMENT_START rom)
        PC_RESET_ADDRESS ROM_SEGMENT_START 0xfffd = 0x80
      simp [writeAddressValue, memWrite, PC_RESET_ADDRESS, ROM_SEGMENT_START]
    · intro i hi h1 h2
      show writeAddressValue (copyROM c.memory ROM_SEGMENT_START rom)
        PC_RESET_ADDRESS ROM_SEGMENT_START ((0x8000 + i) % 65536) = rom.getD i 0
      simp only [writeAddressValue, memWrite, PC_RESET_ADDRESS, ROM_SEGMENT_START, e1, e2]
      rw [if_neg h2, if_neg h1]
      exact copyROM_getD rom c.memory 0x8000 i (by norm_num) hlen hi

/-- C6 (witness): the amended theorem on the one-byte image `[0x07]`. -/
theorem C6_witness :
    (LoadROM NewCPU [0x07]).map (fun x => (x.memory 0x8000, x.memory 0xfffc, x.memory 0xfffd))
      = some (0x07, 0x00, 0x80) := by
  obtain ⟨h1, h2⟩ := C6_loadROM NewCPU [0x07]
  rcases hL : LoadROM NewCPU [0x07] with _ | c'
  · exact absurd (h1.mp hL) (by decide)
  · obtain ⟨ha, hb2, hcopy⟩ := h2 c' hL
    have h80 := hcopy 0 (by decide) (by decide) (by decide)
    have e : (0x8000 + 0) % 65536 = 0x8000 := by norm_num
    rw [e] at h80
    simp [h80, ha, hb2]

/-- C7 (counterexample): for `JSR $8005` at 0x8000 the byte at the first
stack slot 0x0100 is the LOW byte 0x02 of the return address, and the high
byte 0x80 is at 0x0101 — not high before low as the claim states. -/
theorem C7_counterexample :
    (processNextInstruction jsrExample).1.memory 0x0100 = 0x02 ∧
    (processNextInstruction jsrExample).1.memory 0x0101 = 0x80 ∧
    (0x02 : Nat) ≠ 0x80 := by
  decide

/-- C7 (amended): after a `JSR` whose opcode byte sits at PC0 (operand bytes
at p = PC0 + 1): PC equals the 16-bit operand, the handler returns
`InstructionProgramCounterUpdated`, the stack pointer moves by exactly 2, and
the two bytes pushed encode the return address p + 1 little-endian, the LOW
byte at the first stack slot 0x0100 + S and the high byte right above it. -/
theorem C7_jsr (c : CPU)
    (hb : memRead c c.program_counter = 0x20)
    (hsp : c.stack_pointer < 256) :
    (processNextInstruction c).1.program_counter
        = readAddressValue c.memory ((c.program_counter + 1) % 65536) ∧
    (runOperation { c with program_counter := (c.program_counter + 1) % 65536 } "JSR" AddrAbsolute).2.1
        = InstructionPostProccessingMode.InstructionProgramCounterUpdated ∧
    (processNextInstruction c).1.stack_pointer = (c.stack_pointer + 2) % 256 ∧
    (processNextInstruction c).1.memory (STACK_START + c.stack_pointer)
        = ((c.program_counter + 2) % 65536) % 256 ∧
    (processNextInstruction c).1.memory (STACK_START + c.stack_pointer + 1)
        = ((c.program_counter + 2) % 65536) / 256 % 256 :=
  jsr_step c hb hsp

/-- C7 (witness): the amended theorem at the concrete `JSR $8005`. -/
theorem C7_witness :
    jsrExample.stack_pointer < 256 ∧
    (processNextInstruction jsrExample).1.stack_pointer
      = (jsrExample.stack_pointer + 2) % 256 ∧
    (processNextInstruction jsrExample).1.memory (STACK_START + jsrExample.stack_pointer)
      = ((jsrExample.program_counter + 2) % 65536) % 256 :=
  ⟨by decide, (C7_jsr jsrExample (by decide) (by decide)).2.2.1,
    (C7_jsr jsrExample (by decide) (by decide)).2.2.2.1⟩

/-- C8: for every execution of ADC with accumulator A, operand byte M and
incoming carry bit c: the new accumulator is (A + M + c) mod 256, the carry
flag afterwards equals (A + M + c > 255), N equals bit 7 of the new
accumulator and Z equals (new accumulator = 0); and in particular the
concrete program `69 ff` with A = 3 and C = 0 yields A = 2, C = 1, N = 0,
Z = 0. -/
theorem C8_adc :
    (∀ (c : CPU) (mode : AddressMode),
      (runOperation c "ADC" mode).1.accumulator
          = (c.accumulator + memRead c (getParameterValue c mode)
              + (if 0 < c.status &&& C_BIT_STATUS then 1 else 0)) % 256 ∧
      ((runOperation c "ADC" mode).1.status).testBit 0
          = decide (255 < c.accumulator + memRead c (getParameterValue c mode)
              + (if 0 < c.status &&& C_BIT_STATUS then 1 else 0)) ∧
      ((runOperation c "ADC" mode).1.status).testBit 7
          = ((runOperation c "ADC" mode).1.accumulator).testBit 7 ∧
      ((runOperation c "ADC" mode).1.status).testBit 1
          = decide ((runOperation c "ADC" mode).1.accumulator = 0)) ∧
    ((processNextInstruction adcExample).1.accumulator = 0x02 ∧
     ((processNextInstruction adcExample).1.status).testBit 0 = true ∧
     ((processNextInstruction adcExample).1.status).testBit 7 = false ∧
     ((processNextInstruction adcExample).1.status).testBit 1 = false) := by
  constructor
  · intro c mode
    simp only [runOperation_ADC]
    refine ⟨?_, ?_, ?_, ?_⟩
    · rw [updateStatusFlags_accumulator, setCarryFlag_accumulator]
      exact addWithCarry_fst _ _ _
    · rw [updateStatusFlags_testBit0, setCarryFlag_testBit0]
      exact addWithCarry_snd _ _ _
    · rw [updateStatusFlags_testBit7, updateStatusFlags_accumulator,
        setCarryFlag_accumulator]
    · rw [updateStatusFlags_testBit1]
      simp only [updateStatusFlags_accumulator, setCarryFlag_accumulator]
  · decide

/-- C10: every image of at most 65536 bytes is accepted by `LoadROM` — in
particular images longer than 32768 bytes — the copy loop stores byte i at
the wrapped 16-bit position (0x8000 + i) mod 65536, and no write ever
touches an address outside the 64 KiB range. -/
theorem C10_loadROM_wrap (c : CPU) (rom : List Nat) (hlen : rom.length ≤ 65536) :
    (LoadROM c rom).isSome = true ∧
    (∀ i, i < rom.length →
      copyROM c.memory ROM_SEGMENT_START rom ((0x8000 + i) % 65536) = rom.getD i 0) ∧
    (∀ c', LoadROM c rom = some c' → ∀ a, 65536 ≤ a → c'.memory a = c.memory a) := by
  refine ⟨?_, ?_, ?_⟩
  · rw [LoadROM_eq_some c rom hlen]
    rfl
  · intro i hi
    have h := copyROM_getD rom c.memory 0x8000 i (by norm_num) hlen hi
    simpa [ROM_SEGMENT_START] using h
  · intro c' hc' a ha
    rw [LoadROM_eq_some c rom hlen] at hc'
    injection hc' with h
    subst h
    show writeAddressValue (copyROM c.memory ROM_SEGMENT_START rom)
      PC_RESET_ADDRESS ROM_SEGMENT_START a = c.memory a
    have h1 : ¬ (a = (PC_RESET_ADDRESS + 1) % 65536) := by
      simp only [PC_RESET_ADDRESS]; omega
    have h2 : ¬ (a = PC_RESET_ADDRESS % 65536) := by
      simp only [PC_RESET_ADDRESS]; omega
    simp only [writeAddressValue, memWrite, if_neg h1, if_neg h2]
    rw [copyROM_untouched]
    intro j hj heq
    omega

/-- C10 (witness): a 33,000-byte image — longer than 32 KiB — is accepted. -/
theorem C10_witness :
    (LoadROM NewCPU longROM).isSome = true ∧ 32768 < longROM.length := by
  constructor
  · exact (C10_loadROM_wrap NewCPU longROM (by rw [longROM, List.length_replicate]; omega)).1
  · rw [longROM, List.length_replicate]
    omega

end Myfinemu
